import Mathlib

/-
Verification of the ai_slidebar system (src/ai_slidebar.py) against its
natural-language specification.  The definitions below are a shallow
embedding of the Python source: pure helpers become Lean functions,
the mutable fields touched by each operation become explicit state
records, and OS calls become an explicit effect list.  Pixel
coordinates are modelled as `Int` (Python ints), wall-clock seconds as
`ℚ` (Python floats; only exact comparisons at rational points are
used by the claims).
-/

namespace AiSlidebar

/-- Axis-aligned monitor rectangle in virtual-desktop pixel coordinates,
as built by `MonitorEnumerator.callback`.  The callback stores
`width = right - left` and `height = bottom - top`, so those two are
derived fields here. -/
structure Monitor where
  left : Int
  top : Int
  right : Int
  bottom : Int
deriving DecidableEq

/-- `width` field stored by the enumerator: `right - left`. -/
def Monitor.width (m : Monitor) : Int := m.right - m.left

/-- `height` field stored by the enumerator: `bottom - top`. -/
def Monitor.height (m : Monitor) : Int := m.bottom - m.top

/-- The sidebar side, `self.sidebar_side` (the strings `'left'` / `'right'`,
already normalized: any other string is replaced by `'right'`). -/
inductive Side where
  | left
  | right
deriving DecidableEq

/-- Cursor position as read by `GetCursorPos`. -/
structure Point where
  x : Int
  y : Int
deriving DecidableEq

/-- `self.win_width_px = int(self.monitor_width * self.SIDEBAR_WIDTH_RATIO)`
with the ratio constant 0.30 (`_update_monitor_settings`).  For any
integer width `w` with `0 ≤ w < 2^40` the IEEE-754 double product
`w * 0.30` rounds to a value whose truncation equals `⌊3w/10⌋`
(the relative error of the stored 0.30 is below a quarter ulp, and
multiples of 3/10 that are not integers stay at distance ≥ 1/10 from
the integers), so the exact form `3 * w / 10` is used. -/
def winWidthPx (m : Monitor) : Int := 3 * m.width / 10

/-- `self.edge_x_px` as computed in `_update_monitor_settings`. -/
def edgeXPx (m : Monitor) (side : Side) : Int :=
  match side with
  | .left => m.left
  | .right => m.right - winWidthPx m

/-- `self.park_x_px` as computed in `_update_monitor_settings`. -/
def parkXPx (m : Monitor) (side : Side) : Int :=
  match side with
  | .left => m.left - winWidthPx m - 500
  | .right => m.right + 500

/-- Result record of `_get_adjacent_monitor_info`. -/
structure AdjInfo where
  index : Nat
  monitor : Monitor
  position : Side
deriving DecidableEq

/-- Vertical-overlap test from `_get_adjacent_monitor_info`:
`mon['top'] < current['bottom'] and mon['bottom'] > current['top']`. -/
def yOverlapB (cur m : Monitor) : Bool :=
  decide (m.top < cur.bottom ∧ m.bottom > cur.top)

/-- Facing-edge proximity test from `_get_adjacent_monitor_info`:
`abs(mon['right'] - current['left']) <= 5` when the sidebar is on the
left, `abs(mon['left'] - current['right']) <= 5` on the right. -/
def edgeTouchB (cur : Monitor) (side : Side) (m : Monitor) : Bool :=
  match side with
  | .left => decide ((m.right - cur.left).natAbs ≤ 5)
  | .right => decide ((m.left - cur.right).natAbs ≤ 5)

/-- `AISidebarSystem._get_adjacent_monitor_info`.  Returns `none` when
fewer than two monitors exist; otherwise scans the monitor list in
order, skipping the selected index, and returns the first monitor with
vertical overlap whose facing edge is within 5px of the sidebar-side
edge.  (For maintained states the selected index is always in range;
the `none` on an out-of-range index stands for the `IndexError` that
the polling loop would swallow.) -/
def getAdjacentMonitorInfo (monitors : List Monitor) (sel : Nat) (side : Side) :
    Option AdjInfo :=
  if monitors.length < 2 then none
  else
    match monitors[sel]? with
    | none => none
    | some cur =>
      (monitors.enum.find? fun im =>
        decide (im.1 ≠ sel) && (yOverlapB cur im.2 && edgeTouchB cur side im.2)).map
        fun im => ⟨im.1, im.2, side⟩

/-- The slice of system state read by one iteration of the visibility
logic in `_mouse_monitor_thread`: the monitor list, the selected index
and the sidebar side.  The cached fields `monitor_left/top/right`,
`monitor_width/height`, `win_width_px`, `edge_x_px` are kept in sync
with these by `_update_monitor_settings`, so they are derived here. -/
structure PollCfg where
  monitors : List Monitor
  selected : Nat
  side : Side
deriving DecidableEq

/-- The selected monitor (`self.monitors[self.selected_monitor]`). -/
def PollCfg.cur (c : PollCfg) : Monitor :=
  c.monitors.getD c.selected ⟨0, 0, 0, 0⟩

/-- `adjacent_info = self._get_adjacent_monitor_info()` in the tick. -/
def PollCfg.adj (c : PollCfg) : Option AdjInfo :=
  getAdjacentMonitorInfo c.monitors c.selected c.side

/-- `in_monitor_y`: cursor y within `[monitor_top, monitor_top + monitor_height)`. -/
def inMonitorY (c : PollCfg) (pt : Point) : Bool :=
  decide (c.cur.top ≤ pt.y ∧ pt.y < c.cur.top + c.cur.height)

/-- `in_sidebar_area` from the tick. -/
def inSidebarArea (c : PollCfg) (pt : Point) : Bool :=
  match c.side with
  | .left =>
    decide (pt.x ≥ c.cur.left ∧ pt.x ≤ c.cur.left + winWidthPx c.cur) && inMonitorY c pt
  | .right =>
    decide (pt.x ≥ edgeXPx c.cur .right ∧ pt.x ≤ c.cur.right) && inMonitorY c pt

/-- `adj_in_y`: cursor y within the adjacent monitor's vertical extent. -/
def adjInY (m : Monitor) (pt : Point) : Bool :=
  decide (m.top ≤ pt.y ∧ pt.y < m.bottom)

/-- `at_edge`: the 5px trigger strip at the sidebar-side edge of the
selected monitor, restricted to `in_monitor_y`. -/
def atEdge (c : PollCfg) (pt : Point) : Bool :=
  match c.side with
  | .left => decide (pt.x ≥ c.cur.left ∧ pt.x ≤ c.cur.left + 5) && inMonitorY c pt
  | .right => decide (pt.x ≥ c.cur.right - 5 ∧ pt.x ≤ c.cur.right) && inMonitorY c pt

/-- `on_adjacent_monitor`: anywhere on the side-matching adjacent monitor.
Note the source's half-open conventions: for side left the x-range is
`left ≤ x < right`, for side right it is `left < x ≤ right`. -/
def onAdjacentMonitor (c : PollCfg) (pt : Point) : Bool :=
  match c.adj with
  | none => false
  | some info =>
    match c.side with
    | .left =>
      if info.position = Side.left then
        decide (pt.x ≥ info.monitor.left ∧ pt.x < info.monitor.right) && adjInY info.monitor pt
      else false
    | .right =>
      if info.position = Side.right then
        decide (pt.x > info.monitor.left ∧ pt.x ≤ info.monitor.right) && adjInY info.monitor pt
      else false

/-- `trigger_zone = at_edge or on_adjacent_monitor`. -/
def triggerZone (c : PollCfg) (pt : Point) : Bool :=
  atEdge c pt || onAdjacentMonitor c pt

/-- `extended_sidebar_area`: the hold region while the sidebar is open.
The source computes `on_adjacent or in_sidebar_area` when a
side-matching neighbor exists and `in_sidebar_area` otherwise; since
`onAdjacentMonitor` is `false` in the latter case the single formula
covers both branches. -/
def extendedSidebarArea (c : PollCfg) (pt : Point) : Bool :=
  onAdjacentMonitor c pt || inSidebarArea c pt

/-- `moved_away_on_same_monitor`: cursor beyond the hide boundary on the
sidebar's own monitor. -/
def movedAwayOnSameMonitor (c : PollCfg) (pt : Point) : Bool :=
  match c.side with
  | .left =>
    decide (pt.x > c.cur.left + winWidthPx c.cur + 50) && inMonitorY c pt &&
      decide (pt.x ≤ c.cur.right)
  | .right =>
    decide (pt.x < edgeXPx c.cur .right - 50) && inMonitorY c pt &&
      decide (pt.x ≥ c.cur.left)

/-- `moved_outside_y`: cursor y outside the selected monitor's range and,
when an adjacent monitor exists, also outside the neighbor's range. -/
def movedOutsideY (c : PollCfg) (pt : Point) : Bool :=
  match c.adj with
  | none => !inMonitorY c pt
  | some info => !inMonitorY c pt && !adjInY info.monitor pt

/-- One poll tick of the visibility state machine (the
`if not self._is_pinned:` block of `_mouse_monitor_thread`), returning
the new `self.is_visible`. -/
def pollVisibleStep (c : PollCfg) (pinned vis : Bool) (pt : Point) : Bool :=
  if pinned then vis
  else if vis then
    if !extendedSidebarArea c pt && (movedAwayOnSameMonitor c pt || movedOutsideY c pt) then
      false
    else true
  else
    if triggerZone c pt then true else false

/-- Iterated poll ticks over a cursor trajectory. -/
def pollVisibleRun (c : PollCfg) (pinned : Bool) (vis : Bool) (pts : List Point) : Bool :=
  pts.foldl (fun v pt => pollVisibleStep c pinned v pt) vis

/-- Spec-side reading used by claim C1: a cursor sample lying inside a
monitor's rectangle, with the standard half-open pixel convention
`[left, right) × [top, bottom)`. -/
def specInsideRect (m : Monitor) (pt : Point) : Bool :=
  decide (m.left ≤ pt.x ∧ pt.x < m.right ∧ m.top ≤ pt.y ∧ pt.y < m.bottom)

/-- Spec-side reading used by claim C1: the 5px edge strip at the
sidebar-side edge of the selected monitor, within its vertical extent. -/
def specEdgeStrip (cur : Monitor) (side : Side) (pt : Point) : Bool :=
  (match side with
   | .left => decide (cur.left ≤ pt.x ∧ pt.x ≤ cur.left + 5)
   | .right => decide (cur.right - 5 ≤ pt.x ∧ pt.x ≤ cur.right)) &&
  decide (cur.top ≤ pt.y ∧ pt.y < cur.bottom)

/-- The adjacent-monitor trigger region as the source actually bounds it
(amended claim C1): half-open on the far side, and for side right the
shared boundary column `x = left` is excluded. -/
def amendedAdjRegion (side : Side) (m : Monitor) (pt : Point) : Bool :=
  (match side with
   | .left => decide (m.left ≤ pt.x ∧ pt.x < m.right)
   | .right => decide (m.left < pt.x ∧ pt.x ≤ m.right)) &&
  decide (m.top ≤ pt.y ∧ pt.y < m.bottom)

/-- Spec-side reading used by claim C4: the parked x-coordinate lies
outside `[left, right]` at distance at least `winWidthPx` from the
monitor edge. -/
def specParkOutsideByWidth (m : Monitor) (side : Side) : Bool :=
  decide (parkXPx m side ≤ m.left - winWidthPx m ∨ parkXPx m side ≥ m.right + winWidthPx m)

/-- Spec-side reading used by claim C3: the qualifying condition on a
candidate neighbor monitor, exactly as the claim words it. -/
def adjQualifiesSpec (cur : Monitor) (side : Side) (m : Monitor) : Prop :=
  m.top < cur.bottom ∧ m.bottom > cur.top ∧
    (match side with
     | Side.left => (m.right - cur.left).natAbs ≤ 5
     | Side.right => (m.left - cur.right).natAbs ≤ 5)

instance (cur : Monitor) (side : Side) (m : Monitor) :
    Decidable (adjQualifiesSpec cur side m) := by
  unfold adjQualifiesSpec
  cases side <;> simp only [] <;> exact inferInstance

/-- The mutable fields of `AISidebarSystem` touched by the monitor- and
side-change operations and by the apply-visibility phase of the poll
loop.  `lastVisibleState` is `self._last_visible_state` (the
`lastAppliedVisible` cache of the spec); `windowsReady` records whether
both `self.hwnd_nav` and `self.hwnd_browser` are non-null. -/
structure SidebarState where
  monitors : List Monitor
  selected : Nat
  side : Side
  isVisible : Bool
  isPinned : Bool
  lastVisibleState : Option Bool
  windowsReady : Bool
deriving DecidableEq

/-- OS-level calls issued by the modelled operations. -/
inductive OsEffect where
  | hideNav
  | hideBrowser
  | showWindows
  | hideWindows
  | scheduleShowWindows
deriving DecidableEq

/-- `SettingsValidator.validate_monitor_index` on an integer argument
(non-integer arguments fall to the same default 0 via the except
branch). -/
def validateMonitorIndex (index : Int) (maxMonitors : Nat) : Nat :=
  if 0 ≤ index ∧ index < maxMonitors then index.toNat else 0

/-- `AISidebarSystem.set_sidebar_side` after string normalization
(invalid strings become `'right'` before this point).  Returns the new
state and the OS calls issued.  The `_last_visible_state` cache is not
touched; instead the windows are re-shown or re-hidden immediately. -/
def setSidebarSide (s : SidebarState) (side : Side) : SidebarState × List OsEffect :=
  if side = s.side then (s, [])
  else
    let s1 : SidebarState := { s with side := side }
    if s.windowsReady then
      (s1, if s.isVisible then [OsEffect.showWindows] else [OsEffect.hideWindows])
    else (s1, [])

/-- `AISidebarSystem.change_monitor`.  Returns the new state, the Python
return value, and the OS calls issued. -/
def changeMonitor (s : SidebarState) (index : Int) : SidebarState × Bool × List OsEffect :=
  let validated := validateMonitorIndex index s.monitors.length
  if validated = s.selected then (s, false, [])
  else
    let s1 : SidebarState := { s with selected := validated }
    if s1.windowsReady then
      if s1.isPinned then
        ({ s1 with isVisible := true, lastVisibleState := none }, true,
          [OsEffect.hideNav, OsEffect.hideBrowser, OsEffect.scheduleShowWindows])
      else
        ({ s1 with isVisible := false, lastVisibleState := none }, true,
          [OsEffect.hideNav, OsEffect.hideBrowser])
    else (s1, true, [])

/-- The apply phase at the end of each poll tick (`_mouse_monitor_thread`
lines guarded by `if self.hwnd_nav and self.hwnd_browser:`): show or
hide is issued only when `is_visible` differs from the cached
`_last_visible_state`. -/
def applyVisibility (s : SidebarState) : SidebarState × List OsEffect :=
  if s.windowsReady then
    if s.isVisible && decide (s.lastVisibleState ≠ some true) then
      ({ s with lastVisibleState := some true }, [OsEffect.showWindows])
    else if !s.isVisible && decide (s.lastVisibleState ≠ some false) then
      ({ s with lastVisibleState := some false }, [OsEffect.hideWindows])
    else (s, [])
  else (s, [])

/-- Window rectangle as returned by `GetWindowRect` / stored in
`self._target_positions`. -/
structure WinRect where
  x : Int
  y : Int
  w : Int
  h : Int
deriving DecidableEq

/-- The deviation test of `_enforce_window_position` with its 2px
tolerance. -/
def needsCorrection (current target : WinRect) : Bool :=
  decide ((current.x - target.x).natAbs > 2 ∨ (current.y - target.y).natAbs > 2 ∨
    (current.w - target.w).natAbs > 2 ∨ (current.h - target.h).natAbs > 2)

/-- `AISidebarSystem._enforce_window_position`: `some r` means a
`SetWindowPos` move/resize call to rectangle `r` was issued, `none`
means no OS call.  `isWindow` is the `user32.IsWindow(hwnd)` probe and
`current` the readable OS rectangle (`none` when `GetWindowRect`
fails). -/
def enforceWindowPosition (isWindow : Bool) (current : Option WinRect) (target : WinRect) :
    Option WinRect :=
  if !isWindow then none
  else
    match current with
    | none => none
    | some cur => if needsCorrection cur target then some target else none

/-- One entry of the `AVAILABLE_LLMS` table. -/
structure LlmEntry where
  key : String
  label : String
  url : String
  domain : String
deriving DecidableEq

/-- The `AVAILABLE_LLMS` table from the source, in declaration order. -/
def availableLlms : List LlmEntry :=
  [⟨"chatgpt", "ChatGPT", "https://chatgpt.com", "chatgpt.com"⟩,
   ⟨"claude", "Claude", "https://claude.ai", "claude.ai"⟩,
   ⟨"gemini", "Gemini", "https://gemini.google.com", "gemini.google.com"⟩,
   ⟨"perplexity", "Perplexity", "https://www.perplexity.ai", "perplexity.ai"⟩,
   ⟨"grok", "Grok", "https://x.com/i/grok", "x.com"⟩,
   ⟨"pi", "Pi", "https://pi.ai", "pi.ai"⟩,
   ⟨"huggingface", "HuggingChat", "https://huggingface.co/chat", "huggingface.co"⟩,
   ⟨"mistral", "Mistral", "https://chat.mistral.ai", "mistral.ai"⟩,
   ⟨"poe", "Poe", "https://poe.com", "poe.com"⟩,
   ⟨"copilot", "Copilot", "https://copilot.microsoft.com", "copilot.microsoft.com"⟩,
   ⟨"claude-code", "Claude Code", "https://claude.ai/code", "claude.ai"⟩,
   ⟨"you", "You.com", "https://you.com", "you.com"⟩]

/-- `VALID_LLM_KEYS = frozenset(AVAILABLE_LLMS.keys())`. -/
def validLlmKeys : List String := availableLlms.map fun e => e.key

/-- `AVAILABLE_LLMS[key]` lookup guarded by `key in AVAILABLE_LLMS`. -/
def findLlm (key : String) : Option LlmEntry :=
  availableLlms.find? fun e => e.key == key

/-- Whitespace stripped by Python `str.strip()` (ASCII subset; the
claims only involve the space character). -/
def isPyWhitespace (ch : Char) : Bool :=
  ch = ' ' || ch = '\t' || ch = '\n' || ch = '\r' || ch = '\x0b' || ch = '\x0c'

/-- Python `s.strip()`. -/
def pyStrip (s : List Char) : List Char :=
  ((s.dropWhile isPyWhitespace).reverse.dropWhile isPyWhitespace).reverse

/-- A Python value read from a dict field: a string or something else.
A missing `name`/`content` key defaults to `''`, i.e. `str []`. -/
inductive PyField where
  | str (s : List Char)
  | nonStr
deriving DecidableEq

/-- The dict argument of `SettingsValidator.validate_prompt`; the
`fast_access` field is modelled after the `bool(...)` coercion. -/
structure PromptDict where
  pname : PyField
  content : PyField
  fastAccess : Bool
deriving DecidableEq

/-- A validated prompt entry as returned by `validate_prompt`. -/
structure ValidPrompt where
  pname : List Char
  content : List Char
  fastAccess : Bool
deriving DecidableEq

/-- `SettingsValidator.validate_prompt`.  Input `none` stands for a
non-dict argument.  Note the source truncates with `name[:150]` and
`content[:2000]` BEFORE stripping. -/
def validatePrompt : Option PromptDict → Option ValidPrompt
  | none => none
  | some d =>
    match d.pname, d.content with
    | .str n, .str c =>
      if pyStrip n = [] || pyStrip c = [] then none
      else some ⟨pyStrip (n.take 150), pyStrip (c.take 2000), d.fastAccess⟩
    | _, _ => none

/-- The mutable fields of `AISidebarSystem` read by `switch_to_llm`,
`set_active_llm` and `_save_current_url`.  `lastUrls` models the
`self._llm_last_urls` dict as a map from key to `(url, timestamp)`;
`browserUrl` is the value of `self.browser_window.get_current_url()`
(`none` when there is no browser window or the call returns a falsy
value is folded into the empty-string case). -/
structure ChatState where
  selectedLlms : List String
  currentActive : Nat
  remainInChat : Int
  lastUrls : String → Option (String × ℚ)
  browserUrl : Option String

/-- `AISidebarSystem.switch_to_llm`.  Returns `some (slot, url)` when
the Python returns `True` after calling `self.load_url(url)` with the
chosen URL, `none` when it returns `False`.  `now` is `time.time()`. -/
def switchToLlm (s : ChatState) (now : ℚ) (slot : Int) : Option (Nat × String) :=
  if ¬(0 ≤ slot ∧ slot < 3) then none
  else
    match s.selectedLlms[slot.toNat]? with
    | none => none
    | some key =>
      match findLlm key with
      | none => none
      | some entry =>
        let urlToLoad :=
          if s.remainInChat > 0 then
            match s.lastUrls key with
            | some (lastUrl, lastTime) =>
              if (now - lastTime) / 60 < (s.remainInChat : ℚ) ∧ lastUrl ≠ "" then lastUrl
              else entry.url
            | none => entry.url
          else entry.url
        some (slot.toNat, urlToLoad)

/-- `AISidebarSystem._save_current_url`: records the current browser URL
with timestamp `now` when a browser window exists and the URL is
truthy. -/
def saveCurrentUrl (s : ChatState) (now : ℚ) (key : String) : ChatState :=
  match s.browserUrl with
  | none => s
  | some u =>
    if u = "" then s
    else { s with lastUrls := fun k => if k = key then some (u, now) else s.lastUrls k }

/-- `AISidebarSystem.set_active_llm`: before switching away, the old
slot's URL is recorded when a retention window is configured.  The
`self.selected_llms[self.current_active_llm]` index is modelled by
`getD` (valid by the list invariant maintained by the system). -/
def setActiveLlm (s : ChatState) (now : ℚ) (slot : Int) : ChatState × Bool :=
  if 0 ≤ slot ∧ slot < 3 then
    let s1 :=
      if s.remainInChat > 0 then
        saveCurrentUrl s now (s.selectedLlms.getD s.currentActive "")
      else s
    ({ s1 with currentActive := slot.toNat }, true)
  else (s, false)

/-- The default slot assignment in `validate_llm_list`. -/
def defaultLlms : List String := ["chatgpt", "claude", "gemini"]

/-- An element of the (arbitrary) list passed to `validate_llm_list`. -/
inductive PyItem where
  | str (s : String)
  | nonStr
deriving DecidableEq

/-- The first pass of `validate_llm_list`: keep, among the first three
elements, the strings that are valid keys. -/
def firstPassLlms (items : List PyItem) : List String :=
  (items.take 3).filterMap fun it =>
    match it with
    | .str s => if validLlmKeys.contains s then some s else none
    | .nonStr => none

/-- One iteration of the `while len(validated) < 3` loop body: append
the first default key not already present.  When every default is
present the Python body appends nothing (and the loop would spin); that
branch is proved unreachable for lists shorter than 3. -/
def fillDefaultsStep (v : List String) : List String :=
  match defaultLlms.find? (fun d => !v.contains d) with
  | some d => v ++ [d]
  | none => v

/-- The `while` loop of `validate_llm_list`, fuel-indexed; fuel 3 is
provably enough to reach length 3 from any first-pass result. -/
def fillDefaults : Nat → List String → List String
  | 0, v => v
  | fuel + 1, v => if v.length < 3 then fillDefaults fuel (fillDefaultsStep v) else v

/-- `SettingsValidator.validate_llm_list`.  Input `none` stands for a
non-list argument. -/
def validateLlmList : Option (List PyItem) → List String
  | none => defaultLlms
  | some items => (fillDefaults 3 (firstPassLlms items)).take 3

/-- `AISidebarSystem.change_llm`, restricted to the `selected_llms`
field it mutates.  Returns the new list and the Python return value.
The `selected_llms[slot]` read in the equality guard is modelled by
`getD` (valid by the list invariant). -/
def changeLlm (selectedLlms : List String) (slot : Int) (key : String) :
    List String × Bool :=
  if ¬(0 ≤ slot ∧ slot < 3) ∨ ¬(validLlmKeys.contains key) then (selectedLlms, false)
  else if selectedLlms.getD slot.toNat "" = key then (selectedLlms, false)
  else (selectedLlms.set slot.toNat key, true)

/-- The invariant claim C10 is about: `selected_llms` always holds
exactly 3 valid keys. -/
def llmInvariant (l : List String) : Prop :=
  l.length = 3 ∧ ∀ k ∈ l, k ∈ validLlmKeys

instance (l : List String) : Decidable (llmInvariant l) := by
  unfold llmInvariant
  exact inferInstance

/-- C2: while the pin flag is set, one poll tick never changes the
visibility state (in particular never Visible→Hidden), and no cursor
trajectory of poll ticks ever moves the state from Visible to Hidden:
iterating the tick from Visible stays Visible. -/
theorem c2_pinned_preserves_visible (c : PollCfg) (vis : Bool) (pt : Point)
    (pts : List Point) :
    pollVisibleStep c true vis pt = vis ∧ pollVisibleRun c true true pts = true := by
  refine ⟨by simp [pollVisibleStep], ?_⟩
  induction pts with
  | nil => rfl
  | cons p ps ih =>
    simp only [pollVisibleRun, List.foldl_cons, pollVisibleStep, if_true] at ih ⊢
    exact ih

/-- C4 (counterexample): on a 1920-wide monitor with side=Right the
parked x-coordinate is `monitor.right + 500`, only 500px beyond the
edge, while the window width is 576px — so parkX is NOT at distance at
least `width` from the monitor edge, refuting the claim as stated. -/
theorem c4_counterexample :
    winWidthPx ⟨0, 0, 1920, 1080⟩ = 576 ∧
    parkXPx ⟨0, 0, 1920, 1080⟩ Side.right = 2420 ∧
    specParkOutsideByWidth ⟨0, 0, 1920, 1080⟩ Side.right = false := by
  decide

/-- C4 (amended): for every monitor rectangle with positive width,
edgeX = monitor.left for side=Left and monitor.right − width for
side=Right (width = floor(monitor.width × 0.30)); parkX lies strictly
outside [monitor.left, monitor.right] — at distance width + 500 from
the left edge for side=Left, and at distance exactly 500 from the
right edge for side=Right (which is less than width whenever
width > 500). -/
theorem c4_placement (m : Monitor) (hm : m.left < m.right) :
    edgeXPx m Side.left = m.left ∧
    edgeXPx m Side.right = m.right - winWidthPx m ∧
    parkXPx m Side.left < m.left ∧
    m.left - parkXPx m Side.left = winWidthPx m + 500 ∧
    m.right < parkXPx m Side.right ∧
    parkXPx m Side.right - m.right = 500 := by
  have hw : 0 ≤ winWidthPx m := by
    apply Int.ediv_nonneg _ (by norm_num)
    have hwidth : 0 ≤ m.width := by unfold Monitor.width; omega
    omega
  refine ⟨rfl, rfl, ?_, ?_, ?_, ?_⟩ <;> simp only [parkXPx] <;> omega

/-- Witness for c4_placement at the concrete monitor ⟨0,0,1000,1000⟩. -/
theorem c4_placement_witness :
    ((0 : Int) < 1000) ∧
    (edgeXPx ⟨0, 0, 1000, 1000⟩ Side.left = 0 ∧
     edgeXPx ⟨0, 0, 1000, 1000⟩ Side.right = 1000 - winWidthPx ⟨0, 0, 1000, 1000⟩ ∧
     parkXPx ⟨0, 0, 1000, 1000⟩ Side.left < 0 ∧
     (0 : Int) - parkXPx ⟨0, 0, 1000, 1000⟩ Side.left = winWidthPx ⟨0, 0, 1000, 1000⟩ + 500 ∧
     (1000 : Int) < parkXPx ⟨0, 0, 1000, 1000⟩ Side.right ∧
     parkXPx ⟨0, 0, 1000, 1000⟩ Side.right - 1000 = 500) :=
  ⟨by decide, c4_placement ⟨0, 0, 1000, 1000⟩ (by decide)⟩

/-- C6: for a valid window with a readable current rectangle, the
position-enforcement step issues no OS move/resize call exactly when
every one of x, y, width, height deviates from the target by at most
2 pixels, and issues one exactly when some component deviates by more
than 2 pixels. -/
theorem c6_enforce_tolerance (cur target : WinRect) :
    (enforceWindowPosition true (some cur) target = none ↔
      (cur.x - target.x).natAbs ≤ 2 ∧ (cur.y - target.y).natAbs ≤ 2 ∧
      (cur.w - target.w).natAbs ≤ 2 ∧ (cur.h - target.h).natAbs ≤ 2) ∧
    ((enforceWindowPosition true (some cur) target).isSome = true ↔
      ((cur.x - target.x).natAbs > 2 ∨ (cur.y - target.y).natAbs > 2 ∨
       (cur.w - target.w).natAbs > 2 ∨ (cur.h - target.h).natAbs > 2)) := by
  unfold enforceWindowPosition needsCorrection
  by_cases h : (cur.x - target.x).natAbs > 2 ∨ (cur.y - target.y).natAbs > 2 ∨
      (cur.w - target.w).natAbs > 2 ∨ (cur.h - target.h).natAbs > 2
  · simp only [Bool.not_true, Bool.false_eq_true, if_false, decide_eq_true h, if_true]
    constructor
    · simp only [reduceCtorEq, false_iff]
      omega
    · simp [h]
  · simp only [Bool.not_true, Bool.false_eq_true, if_false, decide_eq_false h, if_false]
    constructor
    · simp only [true_iff]
      omega
    · simp [h]

/-- C8: evaluation of the code at the failing input.  The entry with
name = 150 spaces followed by `text` and content `x` passes the
non-blank check (the stripped name is `text`), yet `validate_prompt`
returns it with an EMPTY name, because the source truncates with
`name[:150]` before stripping.  This contradicts the validator's own
non-empty-name rejection rule and the spec's "non-empty trimmed name". -/
theorem c8_truncate_before_trim :
    pyStrip (List.replicate 150 ' ' ++ ("text").toList) = ("text").toList ∧
    validatePrompt (some ⟨PyField.str (List.replicate 150 ' ' ++ ("text").toList),
        PyField.str (("x").toList), true⟩) =
      some ⟨[], ("x").toList, true⟩ := by
  constructor <;> decide

/-- C1 (counterexample): with monitors [0,1920)×[0,1080) (selected) and
[1920,3840)×[0,1440) (side-matching right neighbor), the cursor sample
(1920, 1200) lies inside the neighbor's rectangle, yet one poll tick
from Hidden with the pin flag off leaves the state Hidden: the source
requires `pt.x > adj.left` for the right-side neighbor trigger, and the
selected monitor's edge strip does not apply because y = 1200 is
outside its vertical extent. -/
theorem c1_counterexample :
    getAdjacentMonitorInfo [⟨0, 0, 1920, 1080⟩, ⟨1920, 0, 3840, 1440⟩] 0 Side.right =
      some ⟨1, ⟨1920, 0, 3840, 1440⟩, Side.right⟩ ∧
    specInsideRect ⟨1920, 0, 3840, 1440⟩ ⟨1920, 1200⟩ = true ∧
    pollVisibleStep ⟨[⟨0, 0, 1920, 1080⟩, ⟨1920, 0, 3840, 1440⟩], 0, Side.right⟩
      false false ⟨1920, 1200⟩ = false := by
  decide

/-- C1 (amended): starting Hidden with the pin flag off, a poll tick
whose cursor sample lies inside the 5px edge strip of the selected
monitor's sidebar-side edge (within its vertical extent), or inside
the side-matching adjacent monitor's rectangle taken with the source's
bounds — `[left, right)` horizontally for side=Left and `(left, right]`
for side=Right (the shared boundary column is excluded there and
triggers only through the edge strip), within the neighbor's vertical
extent — sets the visibility state to Visible on that tick. -/
theorem c1_show_trigger (c : PollCfg) (pt : Point) (cur : Monitor)
    (hsel : c.monitors[c.selected]? = some cur)
    (h : specEdgeStrip cur c.side pt = true ∨
      ∃ info, getAdjacentMonitorInfo c.monitors c.selected c.side = some info ∧
        info.position = c.side ∧ amendedAdjRegion c.side info.monitor pt = true) :
    pollVisibleStep c false false pt = true := by
  have hcur : c.cur = cur := by
    unfold PollCfg.cur
    rw [List.getD_eq_getElem?_getD, hsel]
    rfl
  have htz : triggerZone c pt = true := by
    unfold triggerZone
    rcases h with hedge | ⟨info, hadj, hpos, hreg⟩
    · rw [Bool.or_eq_true]
      refine Or.inl ?_
      unfold atEdge inMonitorY
      rw [hcur]
      cases hside : c.side <;>
      · rw [hside] at hedge
        simp only [specEdgeStrip, Bool.and_eq_true, decide_eq_true_eq] at hedge
        simp only [Monitor.height, Bool.and_eq_true, decide_eq_true_eq]
        omega
    · rw [Bool.or_eq_true]
      refine Or.inr ?_
      have hadj' : c.adj = some info := hadj
      unfold onAdjacentMonitor
      rw [hadj']
      cases hside : c.side <;>
      · rw [hside] at hpos hreg
        simp only [amendedAdjRegion, Bool.and_eq_true, decide_eq_true_eq] at hreg
        simp only [hpos, if_true, adjInY, Bool.and_eq_true, decide_eq_true_eq]
        omega
  simp [pollVisibleStep, htz]

/-- Witness for c1_show_trigger: a single 1920×1080 monitor, side=Right,
cursor (1918, 500) inside the 5px edge strip. -/
theorem c1_show_trigger_witness :
    pollVisibleStep ⟨[⟨0, 0, 1920, 1080⟩], 0, Side.right⟩ false false ⟨1918, 500⟩ = true :=
  c1_show_trigger ⟨[⟨0, 0, 1920, 1080⟩], 0, Side.right⟩ ⟨1918, 500⟩ ⟨0, 0, 1920, 1080⟩
    (by decide) (Or.inl (by decide))

/-- C3: for every monitor list and valid selection, the adjacency
computation returns none when fewer than 2 monitors exist; any returned
neighbor is a monitor at an index other than the selected one whose
vertical extent overlaps the selected monitor's and whose facing edge
lies within 5px of the sidebar-side edge; and (with at least 2
monitors) a neighbor is returned exactly when such a monitor exists —
in particular a monitor touching only the non-sidebar side does not
qualify and yields none. -/
theorem c3_adjacency (monitors : List Monitor) (sel : Nat) (side : Side) (cur : Monitor)
    (hsel : monitors[sel]? = some cur) :
    (monitors.length < 2 → getAdjacentMonitorInfo monitors sel side = none) ∧
    (∀ info, getAdjacentMonitorInfo monitors sel side = some info →
      info.position = side ∧ info.index ≠ sel ∧ monitors[info.index]? = some info.monitor ∧
      adjQualifiesSpec cur side info.monitor) ∧
    (2 ≤ monitors.length →
      ((getAdjacentMonitorInfo monitors sel side).isSome = true ↔
        ∃ i m, i ≠ sel ∧ monitors[i]? = some m ∧ adjQualifiesSpec cur side m)) := by
  have hpred : ∀ (i : Nat) (m : Monitor),
      (decide (i ≠ sel) && (yOverlapB cur m && edgeTouchB cur side m)) = true ↔
        (i ≠ sel ∧ adjQualifiesSpec cur side m) := by
    intro i m
    cases side <;>
      simp [yOverlapB, edgeTouchB, adjQualifiesSpec, Bool.and_eq_true, decide_eq_true_eq,
        and_assoc]
  by_cases hlen : monitors.length < 2
  · refine ⟨fun _ => ?_, fun info hinfo => ?_, fun h2 => absurd h2 (by omega)⟩
    · unfold getAdjacentMonitorInfo
      simp [hlen]
    · unfold getAdjacentMonitorInfo at hinfo
      simp [hlen] at hinfo
  · have hG : getAdjacentMonitorInfo monitors sel side =
        (monitors.enum.find? fun im =>
          decide (im.1 ≠ sel) && (yOverlapB cur im.2 && edgeTouchB cur side im.2)).map
          fun im => ⟨im.1, im.2, side⟩ := by
      unfold getAdjacentMonitorInfo
      rw [if_neg hlen, hsel]
    refine ⟨fun h => absurd h hlen, ?_, ?_⟩
    · intro info hinfo
      rw [hG] at hinfo
      rcases Option.map_eq_some'.mp hinfo with ⟨im, hfind, hmk⟩
      have hp := List.find?_some hfind
      have hmem := List.mem_of_find?_eq_some hfind
      obtain ⟨i, m⟩ := im
      have hget : monitors[i]? = some m := List.mk_mem_enum_iff_getElem?.mp hmem
      rcases (hpred i m).mp hp with ⟨hne, hq⟩
      subst hmk
      exact ⟨rfl, hne, hget, hq⟩
    · intro _
      rw [hG, Option.isSome_map', List.find?_isSome]
      constructor
      · rintro ⟨⟨i, m⟩, hmem, hp⟩
        rcases (hpred i m).mp hp with ⟨hne, hq⟩
        exact ⟨i, m, hne, List.mk_mem_enum_iff_getElem?.mp hmem, hq⟩
      · rintro ⟨i, m, hne, hget, hq⟩
        exact ⟨(i, m), List.mk_mem_enum_iff_getElem?.mpr hget, (hpred i m).mpr ⟨hne, hq⟩⟩

/-- Witness for c3_adjacency: two side-by-side 1920×1080 monitors,
left one selected, side=Right. -/
theorem c3_adjacency_witness :
    (([⟨0, 0, 1920, 1080⟩, ⟨1920, 0, 3840, 1080⟩] : List Monitor)[0]? =
      some ⟨0, 0, 1920, 1080⟩) ∧
    2 ≤ ([⟨0, 0, 1920, 1080⟩, ⟨1920, 0, 3840, 1080⟩] : List Monitor).length ∧
    ((getAdjacentMonitorInfo [⟨0, 0, 1920, 1080⟩, ⟨1920, 0, 3840, 1080⟩] 0
        Side.right).isSome = true ↔
      ∃ i m, i ≠ 0 ∧ ([⟨0, 0, 1920, 1080⟩, ⟨1920, 0, 3840, 1080⟩] : List Monitor)[i]? =
        some m ∧ adjQualifiesSpec ⟨0, 0, 1920, 1080⟩ Side.right m) :=
  ⟨by decide, by decide,
    (c3_adjacency [⟨0, 0, 1920, 1080⟩, ⟨1920, 0, 3840, 1080⟩] 0 Side.right
      ⟨0, 0, 1920, 1080⟩ (by decide)).2.2 (by decide)⟩

/-- Concrete state used by the C5 theorems: windows exist, sidebar
visible on the right side of the first of two monitors, cache
`some true`. -/
def c5wit : SidebarState :=
  ⟨[⟨0, 0, 1920, 1080⟩, ⟨1920, 0, 3840, 1080⟩], 0, Side.right, true, false, some true, true⟩

/-- C5 (counterexample): a completed side-change operation that alters
the stored value (right → left) leaves the `lastAppliedVisible` cache
at `some true`; `set_sidebar_side` never nulls
`self._last_visible_state`. -/
theorem c5_counterexample :
    (setSidebarSide c5wit Side.left).1.side = Side.left ∧
    c5wit.side = Side.right ∧
    (setSidebarSide c5wit Side.left).1.lastVisibleState = some true := by
  decide

/-- C5 (amended): after every completed monitor-change operation the
`lastAppliedVisible` cache is null (given the invariant that the cache
is null while the managed windows do not yet exist), and a null cache
makes the next poll tick re-apply the show/hide OS call; a completed
side-change operation, by contrast, leaves the cache unchanged and
instead issues the show/hide OS call itself, immediately, when the
windows exist. -/
theorem c5_cache_invalidation (s : SidebarState) (index : Int) (side : Side)
    (hinv : s.windowsReady = false → s.lastVisibleState = none) :
    ((changeMonitor s index).2.1 = true → (changeMonitor s index).1.lastVisibleState = none) ∧
    ((setSidebarSide s side).1.lastVisibleState = s.lastVisibleState) ∧
    (s.windowsReady = true → side ≠ s.side →
      (setSidebarSide s side).2 =
        if s.isVisible then [OsEffect.showWindows] else [OsEffect.hideWindows]) ∧
    (∀ s2 : SidebarState, s2.windowsReady = true → s2.lastVisibleState = none →
      (applyVisibility s2).2 ≠ []) := by
  refine ⟨?_, ?_, ?_, ?_⟩
  · intro hres
    by_cases h1 : validateMonitorIndex index s.monitors.length = s.selected
    · simp [changeMonitor, h1] at hres
    · by_cases h2 : s.windowsReady = true
      · by_cases h3 : s.isPinned = true <;> simp [changeMonitor, h1, h2, h3]
      · have hnone := hinv (by revert h2; cases s.windowsReady <;> simp)
        simp [changeMonitor, h1, h2, hnone]
  · by_cases h1 : side = s.side
    · simp [setSidebarSide, h1]
    · by_cases h2 : s.windowsReady = true <;> simp [setSidebarSide, h1, h2]
  · intro hready hne
    simp [setSidebarSide, hne, hready]
  · intro s2 hr hl
    cases hv : s2.isVisible <;> simp [applyVisibility, hr, hl, hv]

/-- Witness for c5_cache_invalidation at the concrete state c5wit. -/
theorem c5_cache_invalidation_witness :
    (c5wit.windowsReady = false → c5wit.lastVisibleState = none) ∧
    (((changeMonitor c5wit 1).2.1 = true →
        (changeMonitor c5wit 1).1.lastVisibleState = none) ∧
     ((setSidebarSide c5wit Side.left).1.lastVisibleState = c5wit.lastVisibleState) ∧
     (c5wit.windowsReady = true → Side.left ≠ c5wit.side →
       (setSidebarSide c5wit Side.left).2 =
         if c5wit.isVisible then [OsEffect.showWindows] else [OsEffect.hideWindows]) ∧
     (∀ s2 : SidebarState, s2.windowsReady = true → s2.lastVisibleState = none →
       (applyVisibility s2).2 ≠ [])) :=
  ⟨by decide, c5_cache_invalidation c5wit 1 Side.left (by decide)⟩

/-- C9: with a retention window of 10 or 30 minutes, switching away
from a slot (set_active_llm) records the current browser URL for the
old slot's key with the current timestamp; reselecting a slot
(switch_to_llm) loads the recorded URL when the elapsed minutes are
strictly below the window, and loads the slot's default service home
URL when the window is 0, no URL was recorded, or the window has
elapsed. -/
theorem c9_retention_window (s : ChatState) (now : ℚ) (slot : Int) (key : String)
    (entry : LlmEntry) (hslot : 0 ≤ slot ∧ slot < 3)
    (hkey : s.selectedLlms[slot.toNat]? = some key) (hentry : findLlm key = some entry) :
    (∀ u t, (s.remainInChat = 10 ∨ s.remainInChat = 30) → s.lastUrls key = some (u, t) →
      u ≠ "" → (now - t) / 60 < (s.remainInChat : ℚ) →
      switchToLlm s now slot = some (slot.toNat, u)) ∧
    ((s.remainInChat = 0 ∨ s.lastUrls key = none ∨
        (∀ u t, s.lastUrls key = some (u, t) → (s.remainInChat : ℚ) ≤ (now - t) / 60)) →
      switchToLlm s now slot = some (slot.toNat, entry.url)) ∧
    (∀ oldKey u, (s.remainInChat = 10 ∨ s.remainInChat = 30) →
      s.selectedLlms.getD s.currentActive "" = oldKey → s.browserUrl = some u → u ≠ "" →
      (setActiveLlm s now slot).1.lastUrls oldKey = some (u, now) ∧
      (setActiveLlm s now slot).2 = true) := by
  have hcond : ¬¬(0 ≤ slot ∧ slot < 3) := not_not_intro hslot
  have hmain : switchToLlm s now slot =
      some (slot.toNat,
        if s.remainInChat > 0 then
          match s.lastUrls key with
          | some (lastUrl, lastTime) =>
            if (now - lastTime) / 60 < (s.remainInChat : ℚ) ∧ lastUrl ≠ "" then lastUrl
            else entry.url
          | none => entry.url
        else entry.url) := by
    unfold switchToLlm
    rw [if_neg hcond]
    simp only [hkey, hentry]
  refine ⟨?_, ?_, ?_⟩
  · intro u t hrem hlast hne hlt
    have hpos : s.remainInChat > 0 := by rcases hrem with h | h <;> rw [h] <;> norm_num
    rw [hmain, if_pos hpos]
    simp only [hlast]
    rw [if_pos ⟨hlt, hne⟩]
  · intro hdisj
    rw [hmain]
    by_cases hpos : s.remainInChat > 0
    · rw [if_pos hpos]
      rcases hdisj with h0 | hnone | hge
      · rw [h0] at hpos
        exact absurd hpos (by norm_num)
      · simp only [hnone]
      · cases hcase : s.lastUrls key with
        | none => simp only []
        | some p =>
          obtain ⟨u, t⟩ := p
          simp only []
          rw [if_neg]
          rintro ⟨hlt, -⟩
          exact absurd hlt (not_lt.mpr (hge u t hcase))
    · rw [if_neg hpos]
  · intro oldKey u hrem hold hbrow hne
    have hpos : s.remainInChat > 0 := by rcases hrem with h | h <;> rw [h] <;> norm_num
    unfold setActiveLlm
    rw [if_pos hslot, if_pos hpos, hold]
    unfold saveCurrentUrl
    rw [hbrow]
    simp only [if_neg hne]
    exact ⟨by simp, by trivial⟩

/-- Concrete state used by the C9 witness: slots [chatgpt, claude,
gemini], active slot 1 (claude), 10-minute window, a URL recorded for
claude at time 0. -/
def c9wit : ChatState :=
  ⟨["chatgpt", "claude", "gemini"], 1, 10,
   fun k => if k = "claude" then some ("https://claude.ai/chat/abc", (0 : ℚ)) else none,
   some ("https://claude.ai/chat/xyz")⟩

/-- Witness for c9_retention_window: one minute after recording, the
recorded URL is loaded again. -/
theorem c9_retention_window_witness :
    (c9wit.selectedLlms[(1 : Int).toNat]? = some ("claude")) ∧
    switchToLlm c9wit 60 1 = some ((1 : Int).toNat, "https://claude.ai/chat/abc") := by
  refine ⟨by rfl, ?_⟩
  exact (c9_retention_window c9wit 60 1 "claude"
      ⟨"claude", "Claude", "https://claude.ai", "claude.ai"⟩
      (by norm_num) (by rfl) (by rfl)).1 "https://claude.ai/chat/abc" 0 (Or.inl rfl)
      (by simp [c9wit]) (by decide) (by norm_num [c9wit])

/-- Helper for C10: the first pass of `validate_llm_list` keeps at most
3 entries and only valid keys. -/
theorem firstPassLlms_spec (items : List PyItem) :
    (firstPassLlms items).length ≤ 3 ∧ ∀ k ∈ firstPassLlms items, k ∈ validLlmKeys := by
  constructor
  · calc (firstPassLlms items).length ≤ (items.take 3).length :=
        List.length_filterMap_le _ _
      _ ≤ 3 := by rw [List.length_take]; omega
  · intro k hk
    rcases List.mem_filterMap.mp hk with ⟨it, _, hit⟩
    cases it with
    | str s =>
      simp only [Option.ite_none_right_eq_some, Option.some.injEq] at hit
      rcases hit with ⟨hc, hsk⟩
      subst hsk
      simpa using hc
    | nonStr => cases hit

/-- Helper for C10: while fewer than 3 keys are collected, the loop body
of `validate_llm_list` always finds a default key to append (the three
defaults are distinct, so a list shorter than 3 cannot contain them
all), growing the list by exactly one valid key. -/
theorem fillDefaultsStep_spec (v : List String) (hlen : v.length < 3)
    (hval : ∀ k ∈ v, k ∈ validLlmKeys) :
    (fillDefaultsStep v).length = v.length + 1 ∧
      ∀ k ∈ fillDefaultsStep v, k ∈ validLlmKeys := by
  have hfind : (defaultLlms.find? fun d => !v.contains d).isSome = true := by
    by_contra hno
    have hnone : defaultLlms.find? (fun d => !v.contains d) = none := by
      cases hfd : defaultLlms.find? (fun d => !v.contains d)
      · rfl
      · rw [hfd] at hno
        simp at hno
    have hall := List.find?_eq_none.mp hnone
    have hsub : defaultLlms ⊆ v := by
      intro d hd
      have hcontains := hall d hd
      simpa using hcontains
    have hnd : defaultLlms.Nodup := by decide
    have hle := (List.subperm_of_subset hnd hsub).length_le
    simp only [defaultLlms, List.length_cons, List.length_nil] at hle
    omega
  rcases Option.isSome_iff_exists.mp hfind with ⟨d, hd⟩
  constructor
  · unfold fillDefaultsStep
    rw [hd]
    simp
  · intro k hk
    unfold fillDefaultsStep at hk
    rw [hd] at hk
    rcases List.mem_append.mp hk with h | h
    · exact hval k h
    · have hdmem : d ∈ defaultLlms := List.mem_of_find?_eq_some hd
      have hkd : k = d := by simpa using h
      subst hkd
      have hdefault : ∀ x ∈ defaultLlms, x ∈ validLlmKeys := by decide
      exact hdefault k hdmem

/-- Helper for C10: with enough fuel the filling loop reaches exactly
3 valid keys; fuel n suffices from any list of length ≥ 3 − n. -/
theorem fillDefaults_spec : ∀ (fuel : Nat) (v : List String),
    (∀ k ∈ v, k ∈ validLlmKeys) → v.length ≤ 3 → 3 ≤ v.length + fuel →
    (fillDefaults fuel v).length = 3 ∧ ∀ k ∈ fillDefaults fuel v, k ∈ validLlmKeys := by
  intro fuel
  induction fuel with
  | zero =>
    intro v hval hle hge
    unfold fillDefaults
    exact ⟨by omega, hval⟩
  | succ n ih =>
    intro v hval hle hge
    unfold fillDefaults
    by_cases hlen : v.length < 3
    · rw [if_pos hlen]
      rcases fillDefaultsStep_spec v hlen hval with ⟨hstep, hstepval⟩
      exact ih (fillDefaultsStep v) hstepval (by omega) (by omega)
    · rw [if_neg hlen]
      exact ⟨by omega, hval⟩

/-- C10: `validate_llm_list` is total and always returns exactly 3
elements, each a key of the available-LLM table; `change_llm` mutates
`selected_llms` only by writing a valid key into a slot in [0,3),
preserving the 3-valid-keys invariant; and under that invariant
indexing any slot in [0,3) never fails and always yields a key whose
`AVAILABLE_LLMS` lookup succeeds (so `switch_to_llm` and
`set_active_llm` never hit an IndexError or a missing key). -/
theorem c10_llm_list_invariant :
    (∀ x : Option (List PyItem), (validateLlmList x).length = 3 ∧
      ∀ k ∈ validateLlmList x, k ∈ validLlmKeys) ∧
    (∀ (l : List String) (slot : Int) (key : String),
      llmInvariant l → llmInvariant (changeLlm l slot key).1) ∧
    (∀ (l : List String) (slot : Int) (key : String),
      (changeLlm l slot key).2 = true →
      (0 ≤ slot ∧ slot < 3) ∧ key ∈ validLlmKeys ∧
      (changeLlm l slot key).1 = l.set slot.toNat key) ∧
    (∀ l : List String, llmInvariant l → ∀ i : Nat, i < 3 →
      ∃ k, l[i]? = some k ∧ findLlm k ≠ none) := by
  refine ⟨?_, ?_, ?_, ?_⟩
  · intro x
    cases x with
    | none =>
      constructor
      · decide
      · decide
    | some items =>
      rcases firstPassLlms_spec items with ⟨hlen, hval⟩
      rcases fillDefaults_spec 3 (firstPassLlms items) hval hlen (by omega) with ⟨h3, hv3⟩
      have htake : (fillDefaults 3 (firstPassLlms items)).take 3 =
          fillDefaults 3 (firstPassLlms items) :=
        List.take_of_length_le (by omega)
      simp only [validateLlmList]
      rw [htake]
      exact ⟨h3, hv3⟩
  · intro l slot key hinv
    unfold changeLlm
    by_cases h1 : ¬(0 ≤ slot ∧ slot < 3) ∨ ¬(validLlmKeys.contains key = true)
    · rw [if_pos h1]
      exact hinv
    · rw [if_neg h1]
      push_neg at h1
      by_cases h2 : l.getD slot.toNat "" = key
      · rw [if_pos h2]
        exact hinv
      · rw [if_neg h2]
        refine ⟨by rw [List.length_set]; exact hinv.1, ?_⟩
        intro k hk
        rcases List.mem_or_eq_of_mem_set hk with h | h
        · exact hinv.2 k h
        · subst h
          simpa using h1.2
  · intro l slot key hres
    unfold changeLlm at hres
    by_cases h1 : ¬(0 ≤ slot ∧ slot < 3) ∨ ¬(validLlmKeys.contains key = true)
    · rw [if_pos h1] at hres
      cases hres
    · rw [if_neg h1] at hres
      push_neg at h1
      by_cases h2 : l.getD slot.toNat "" = key
      · rw [if_pos h2] at hres
        cases hres
      · rw [if_neg h2] at hres
        refine ⟨h1.1, by simpa using h1.2, ?_⟩
        unfold changeLlm
        rw [if_neg (by push_neg; exact h1), if_neg h2]
  · intro l hinv i hi
    have hilt : i < l.length := by
      rw [hinv.1]
      omega
    refine ⟨l[i], List.getElem?_eq_getElem hilt, ?_⟩
    have hmem : l[i] ∈ l := List.getElem_mem hilt
    have hvalid := hinv.2 _ hmem
    rcases List.mem_map.mp hvalid with ⟨e, he, hek⟩
    intro hnone
    have hsome : (availableLlms.find? fun e2 => e2.key == l[i]).isSome = true := by
      rw [List.find?_isSome]
      exact ⟨e, he, by simp [hek]⟩
    unfold findLlm at hnone
    rw [hnone] at hsome
    cases hsome

/-- Witness for c10_llm_list_invariant: the default slot assignment
satisfies the invariant, and changing slot 0 to `poe` preserves it. -/
theorem c10_llm_list_invariant_witness :
    llmInvariant ["chatgpt", "claude", "gemini"] ∧
    llmInvariant (changeLlm ["chatgpt", "claude", "gemini"] 0 "poe").1 :=
  ⟨by decide,
    c10_llm_list_invariant.2.1 ["chatgpt", "claude", "gemini"] 0 "poe" (by decide)⟩

end AiSlidebar
